import Mathlib

/-!
Shallow embedding of the django2jinja template converter (django2jinja.py)
and verification of the specified properties.

The converter walks a parsed Django template node tree and emits Jinja2
source text.  The embedding models the mutable `Writer` object as an
explicit state record threaded through the translation functions; Python
exceptions (the only reachable one in the embedded fragment is the
`AttributeError` raised by attribute access on `None` or on a plain
string) are modelled with `Except`.  Compiled regular expressions from the
host `re` module are external collaborators and are modelled as abstract
search predicates plus substitution functions.  Output written to the
output stream is accumulated in a `String`; each warning printed to the
error stream is one entry of a `List String`.

Three instrumentation fields (`enter_events`, `leave_events`, `min_depth`)
are added to the writer state solely to let the loop-depth balance
invariant be stated; they count the `enter_loop` / `leave_loop` calls and
track the minimum value the loop-depth counter takes at any mutation
point.  They influence no emitted text.
-/

namespace DjangoToJinja

/-- A Python value as it can appear as a Django `Variable` literal or a
filter argument: the converter only ever prints such values through
`repr`.  Strings and integers cover every value the embedded handlers
receive. -/
inductive PyValue where
  | str (v : String)
  | int (v : Int)
deriving DecidableEq, Repr

/-- Models CPython `repr` for the simple values above: a string is wrapped
in single quotes (none of the values the converter prints contain quotes,
backslashes or control characters, so no escaping arises) and an integer
prints in decimal. -/
def pyRepr : PyValue → String
  | .str v => "\x27" ++ v ++ "\x27"
  | .int v => toString v

/-- `django.template.base.Variable` as the converter reads it: the
`translate` flag (`_("...")` i18n form), the optional resolved `literal`
value, and the raw dotted-path string `var`. -/
structure Variable where
  translate : Bool
  literal : Option PyValue
  var : String
deriving DecidableEq, Repr

/-- The `var` attribute of a `FilterExpression`: either a `SafeData`
string (a constant marked safe by the parser) or a `Variable`. -/
inductive FEVar where
  | safedata (v : String)
  | var (v : Variable)
deriving DecidableEq, Repr

/-- One `(is_var, value)` argument of a Django filter: a `Variable`
argument (dispatched through the node machinery) or a literal value. -/
inductive FilterArg where
  | varArg (v : Variable)
  | litArg (v : PyValue)
deriving DecidableEq, Repr

/-- A Django filter callable as the converter sees it: the
`_filter_name` attribute read by `Writer.get_filter_name` (absent when
`getattr` defaults to `None`) and the argument list. -/
structure Filter where
  filter_name : Option String
  args : List FilterArg
deriving DecidableEq, Repr

/-- `django.template.base.FilterExpression`: a variable part plus the
ordered filter list. -/
structure FilterExpr where
  var : FEVar
  filters : List Filter
deriving DecidableEq, Repr

/-- One entry of the `var_re` list: `(Match pattern, Replace pattern,
Exclusion pattern)`.  A compiled regular expression is an external
collaborator (Python `re`), modelled by its observable behaviour at the
call sites: `search` tells whether `reg.search(var)` finds a match, and
`sub` is `var ↦ reg.sub(rep, var)`.  `excl` models the optional third
tuple element (`None` or a compiled pattern, again reduced to its
`search` behaviour). -/
structure IdentifierRule where
  search : String → Bool
  sub : String → String
  excl : Option (String → Bool)

/-- The slice of a Jinja2 `Environment` the converter consults: the names
of registered filters and globals. -/
structure Environment where
  filters : List String
  globals : List String
deriving DecidableEq, Repr

/-- The `Writer` state: output stream contents, error stream lines, the
six delimiter strings, the autoescape / spaceless flags, the
`use_jinja_autoescape` flag, the private loop-depth counter, the
identifier-rewrite rules and the optional Jinja environment handle.
The last three fields are proof instrumentation only (see the file
header). -/
structure Writer where
  stream : String
  error_stream : List String
  block_start_string : String
  block_end_string : String
  variable_start_string : String
  variable_end_string : String
  comment_start_string : String
  comment_end_string : String
  autoescape : Bool
  spaceless : Bool
  use_jinja_autoescape : Bool
  loop_depth : Int
  var_re : List IdentifierRule
  env : Option Environment
  enter_events : Nat
  leave_events : Nat
  min_depth : Int

/-- A writer built with all constructor defaults: empty streams, the
default Jinja delimiters, autoescape on, spaceless off, loop depth 0, no
rewrite rules and no environment. -/
def default_writer : Writer where
  stream := ""
  error_stream := []
  block_start_string := "\x7b%"
  block_end_string := "%\x7d"
  variable_start_string := "\x7b\x7b"
  variable_end_string := "\x7d\x7d"
  comment_start_string := "\x7b#"
  comment_end_string := "#\x7d"
  autoescape := true
  spaceless := false
  use_jinja_autoescape := false
  loop_depth := 0
  var_re := []
  env := none
  enter_events := 0
  leave_events := 0
  min_depth := 0

/-- `Writer.write`: append text to the output stream. -/
def Writer.write (s : Writer) (t : String) : Writer :=
  { s with stream := s.stream ++ t }

/-- `Writer.warn`: print one message line to the error stream.  (None of
the embedded nodes carries a `source` attribute, so the location prefix
branch of the Python method never fires here.) -/
def Writer.warn (s : Writer) (message : String) : Writer :=
  { s with error_stream := s.error_stream ++ [message] }

/-- `Writer._post_open`: the padding written directly after an opening
delimiter — a trim marker in spaceless mode, else a space. -/
def Writer.post_open (s : Writer) : Writer :=
  if s.spaceless then s.write "- " else s.write " "

/-- `Writer._pre_close`: the padding written directly before a closing
delimiter. -/
def Writer.pre_close (s : Writer) : Writer :=
  if s.spaceless then s.write " -" else s.write " "

/-- `Writer.start_variable`. -/
def Writer.start_variable (s : Writer) : Writer :=
  (s.write s.variable_start_string).post_open

/-- `Writer.end_variable`: appends the explicit `|e` escape filter unless
the value is asserted safe, autoescape is off, or Jinja-side autoescaping
is assumed. -/
def Writer.end_variable (s : Writer) (always_safe : Bool) : Writer :=
  let s := if !always_safe && s.autoescape && !s.use_jinja_autoescape
           then s.write "|e" else s
  (s.pre_close).write s.variable_end_string

/-- `Writer.start_block`. -/
def Writer.start_block (s : Writer) : Writer :=
  (s.write s.block_start_string).post_open

/-- `Writer.end_block`. -/
def Writer.end_block (s : Writer) : Writer :=
  (s.pre_close).write s.block_end_string

/-- `Writer.tag`. -/
def Writer.tag (s : Writer) (name : String) : Writer :=
  ((s.start_block).write name).end_block

/-- `Writer.print_expr`. -/
def Writer.print_expr (s : Writer) (expr : String) : Writer :=
  ((s.start_variable).write expr).end_variable false

/-- `Writer.enter_loop`: increments the loop depth (instrumented with the
event counter and the running minimum of the counter). -/
def Writer.enter_loop (s : Writer) : Writer :=
  { s with loop_depth := s.loop_depth + 1
           enter_events := s.enter_events + 1
           min_depth := min s.min_depth (s.loop_depth + 1) }

/-- `Writer.leave_loop`: reverse of `enter_loop`. -/
def Writer.leave_loop (s : Writer) : Writer :=
  { s with loop_depth := s.loop_depth - 1
           leave_events := s.leave_events + 1
           min_depth := min s.min_depth (s.loop_depth - 1) }

/-- `Writer.in_loop`: true if the loop depth is positive. -/
def Writer.in_loop (s : Writer) : Bool :=
  decide (0 < s.loop_depth)

/-- Python string primitives used by the converter (`startswith`, the
`[3:]` and `[1:]` slices, the `[:2]` slice), modelled over the character
list so that every use is computable by plain structural recursion. -/
def py_startswith (s pre : String) : Bool :=
  pre.data.isPrefixOf s.data

/-- Python slice `s[n:]`. -/
def py_drop (s : String) (n : Nat) : String :=
  String.mk (s.data.drop n)

/-- Python slice `s[:n]`. -/
def py_take (s : String) (n : Nat) : String :=
  String.mk (s.data.take n)

/-- `Writer.literal`: write `repr(value)`, dropping a leading `u` from a
unicode-string repr. -/
def Writer.literal (s : Writer) (value : PyValue) : Writer :=
  let value := pyRepr value
  let value := if py_take value 2 == "u\"" || py_take value 2 == "u\x27"
               then py_drop value 1 else value
  s.write value

/-- The rule loop of `Writer.translate_variable_name`.  Mirrors the
Python expression `no_unless = unless and unless.search(var) or True`
(whose value is always truthy: `unless = None` gives `None or True`,
a failed exclusion search gives `None or True`, and a successful one
gives the truthy match object) followed by
`if reg.search(var) and no_unless: var = reg.sub(rep, var); break`. -/
def var_re_apply (rules : List IdentifierRule) (var : String) : String :=
  match rules with
  | [] => var
  | r :: rest =>
    let no_unless := (match r.excl with
                      | some u => u var
                      | none => false) || true
    if r.search var && no_unless then r.sub var
    else var_re_apply rest var

/-- `Writer.translate_variable_name`: the `forloop` prefix strip followed
by the rewrite-rule loop.  The condition mirrors Python operator
precedence exactly: `self.in_loop and var == 'forloop' or
var.startswith('forloop.')` parses as `(self.in_loop and var ==
'forloop') or var.startswith('forloop.')`. -/
def Writer.translate_variable_name (s : Writer) (var : String) : String :=
  let var := if (s.in_loop && var == "forloop") || py_startswith var "forloop."
             then py_drop var 3 else var
  var_re_apply s.var_re var

/-- `Writer.variable`: print a variable after name translation. -/
def Writer.variable (s : Writer) (name : String) : Writer :=
  s.write (s.translate_variable_name name)

/-- `Writer.get_filter_name`: `getattr(filter, '_filter_name', None)`. -/
def Writer.get_filter_name (_ : Writer) (f : Filter) : Option String :=
  f.filter_name

/-- The module-level handler registered for `Variable` (named `variable`
in the source; that identifier is a Lean keyword, hence the quoting).
Dispatching a bare `Variable` through `Writer.node` always lands here,
and the handler never recurses back into the dispatcher, so the call
sites that pass a `Variable` to `writer.node` invoke it directly. -/
def «variable» (s : Writer) (node : Variable) : Writer :=
  let s := if node.translate
           then (s.warn "i18n system used, make sure to install translations").write "_("
           else s
  let s := match node.literal with
           | some l => s.literal l
           | none => s.variable node.var
  if node.translate then s.write ")" else s

/-- `TextNode` handler. -/
def text_node (s : Writer) (t : String) : Writer :=
  s.write t

/-- The inner argument loop of `Writer.filters`: comma separation, a
`Variable` argument goes through the node dispatcher (resolving to the
`variable` handler), a literal through `Writer.literal`. -/
def Writer.filter_args_go (s : Writer) (args : List FilterArg) (first : Bool) : Writer :=
  match args with
  | [] => s
  | a :: rest =>
    let s := if first then s else s.write ", "
    let s := match a with
             | .varArg v => DjangoToJinja.«variable» s v
             | .litArg v => s.literal v
    Writer.filter_args_go s rest false

/-- The `if args:` block of `Writer.filters`: parenthesised argument
list, written only when the list is nonempty. -/
def Writer.filter_args (s : Writer) (args : List FilterArg) : Writer :=
  match args with
  | [] => s
  | _ => ((s.write "(").filter_args_go args true).write ")"

/-- The filter loop of `Writer.filters`, with the mutable `want_pipe`
local threaded as a parameter.  A filter without a `_filter_name` warns
(`'Could not find filter %s' % name` with `name = None`) and is skipped.
For a named filter the code then evaluates `name not in
self.env.filters`; when the writer was built with `env=None` this
attribute access raises `AttributeError`, modelled as the error case. -/
def Writer.filters_go (s : Writer) (fs : List Filter) (want_pipe : Bool) :
    Except String Writer :=
  match fs with
  | [] => Except.ok s
  | f :: rest =>
    match s.get_filter_name f with
    | none => Writer.filters_go (s.warn "Could not find filter None") rest want_pipe
    | some name =>
      match s.env with
      | none => Except.error "AttributeError: \x27NoneType\x27 object has no attribute \x27filters\x27"
      | some env =>
        let s := if name ∈ env.filters then s
                 else s.warn ("Filter " ++ name ++ " probably doesn\x27t exist in Jinja")
        let s := if want_pipe then s.write "|" else s
        let s := ((s.write name).filter_args f.args)
        Writer.filters_go s rest true

/-- `Writer.filters`: dump a filter list; `is_block` suppresses the pipe
before the first filter. -/
def Writer.filters (s : Writer) (fs : List Filter) (is_block : Bool) :
    Except String Writer :=
  s.filters_go fs (!is_block)

/-- `FilterExpression` handler: a `SafeData` var is written as a literal,
a `Variable` var goes through the node dispatcher (resolving to the
`variable` handler), then the filters are dumped. -/
def filter_expression (s : Writer) (node : FilterExpr) : Except String Writer :=
  let s := match node.var with
           | .safedata v => s.literal (.str v)
           | .var v => «variable» s v
  s.filters node.filters false

/-- `VariableNode` handler.  The Python condition
`node.filter_expression.var.var == 'block.super'` reads the `var`
attribute of the filter expression's `var`; when that is a `SafeData`
string (which has no such attribute) the access raises
`AttributeError`.  With a bare `block.super` reference and no filters the
literal text `super()` is written; otherwise the filter expression is
dispatched (resolving to the `filter_expression` handler). -/
def variable_node (s : Writer) (node : FilterExpr) : Except String Writer :=
  let s := s.start_variable
  match node.var with
  | .safedata _ =>
    Except.error "AttributeError: \x27SafeText\x27 object has no attribute \x27var\x27"
  | .var v =>
    if v.var = "block.super" && node.filters.isEmpty then
      Except.ok ((s.write "super()").end_variable false)
    else do
      let s ← filter_expression s node
      Except.ok (s.end_variable false)

/-- The `enumerate(node.loopvars)` loop of the `ForNode` handler. -/
def write_loopvars (s : Writer) (loopvars : List String) (first : Bool) : Writer :=
  match loopvars with
  | [] => s
  | v :: rest =>
    let s := if first then s else s.write ", "
    write_loopvars (s.variable v) rest false

/-- The `enumerate(node.raw_cycle_vars)` loop of the `CycleNode`
handler: each raw constructor argument is a `Variable` dispatched through
the node machinery (resolving to the `variable` handler). -/
def cycle_args (s : Writer) (vars : List Variable) (first : Bool) : Writer :=
  match vars with
  | [] => s
  | v :: rest =>
    let s := if first then s else s.write ", "
    cycle_args («variable» s v) rest false

/-- `CycleNode` handler: outside a loop it warns and emits nothing;
inside a loop it emits `loop.cycle(...)`, either assigned with a `set`
block (`variable_name` present) or as a printed expression. -/
def cycle (s : Writer) (raw_cycle_vars : List Variable)
    (variable_name : Option String) : Writer :=
  if !s.in_loop then
    s.warn "Untranslatable free cycle (cycle outside loop)"
  else
    let s := match variable_name with
             | some name => (s.start_block).write ("set " ++ name ++ " = ")
             | none => s.start_variable
    let s := s.write "loop.cycle("
    let s := cycle_args s raw_cycle_vars true
    let s := s.write ")"
    match variable_name with
    | some _ => s.end_block
    | none => s.end_variable false

mutual
/-- The closed set of node shapes the embedded handlers cover, one
constructor per dispatchable runtime type, plus `Unknown`, which stands
for any runtime type matching no handler-table key by type and none by
type name (it carries the `__module__` and `__class__.__name__` strings
the fallback warning prints). -/
inductive Node where
  | TextNode (s : String)
  | VariableRef (v : Variable)
  | VariableNode (filter_expression : FilterExpr)
  | FilterExpressionNode (fe : FilterExpr)
  | ForNode (loopvars : List String) (is_reversed : Bool) (sequence : Node)
      (nodelist_loop : Nodes) (nodelist_empty : Nodes)
  | CycleNode (raw_cycle_vars : List Variable) (variable_name : Option String)
  | AutoEscapeControlNode (setting : Bool) (nodelist : Nodes)
  | SpacelessNode (nodelist : Nodes)
  | Unknown (module cls : String)
/-- A node list (`NodeList` in Django); a separate inductive so that the
mutual recursion over nodes and node lists is structural. -/
inductive Nodes where
  | nil
  | cons (n : Node) (rest : Nodes)
end

mutual
/-- Number of node constructors in a tree (string payloads excluded), the
termination measure of the translation functions. -/
def Node.size : Node → Nat
  | .TextNode _ => 1
  | .VariableRef _ => 1
  | .VariableNode _ => 1
  | .FilterExpressionNode _ => 1
  | .CycleNode _ _ => 1
  | .Unknown _ _ => 1
  | .ForNode _ _ sequence nodelist_loop nodelist_empty =>
      1 + sequence.size + nodelist_loop.size + nodelist_empty.size
  | .AutoEscapeControlNode _ nodelist => 1 + nodelist.size
  | .SpacelessNode nodelist => 1 + nodelist.size
/-- Size of a node list. -/
def Nodes.size : Nodes → Nat
  | .nil => 0
  | .cons n rest => 1 + n.size + rest.size
end

/-- Python `str.lstrip()`: drop leading whitespace characters. -/
def py_lstrip (s : String) : String :=
  String.mk (s.data.dropWhile Char.isWhitespace)

/-- Python `str.rstrip()`: drop trailing whitespace characters. -/
def py_rstrip (s : String) : String :=
  String.mk ((s.data.reverse.dropWhile Char.isWhitespace).reverse)

/-- Truthiness of a `NodeList`: Python `if node.nodelist_empty:` is false
exactly for the empty list. -/
def Nodes.isNil : Nodes → Bool
  | .nil => true
  | .cons _ _ => false

/-- The `nodelist[0] = TextNode(nodelist[0].s.lstrip())` step of the
`SpacelessNode` handler (a no-op when the list is empty or its first
element is not a `TextNode`). -/
def Nodes.update_first : Nodes → Nodes
  | .nil => .nil
  | .cons (.TextNode t) rest => .cons (.TextNode (py_lstrip t)) rest
  | .cons n rest => .cons n rest

/-- The `nodelist[-1] = TextNode(nodelist[-1].s.rstrip())` step of the
`SpacelessNode` handler. -/
def Nodes.update_last : Nodes → Nodes
  | .nil => .nil
  | .cons (.TextNode t) .nil => .cons (.TextNode (py_rstrip t)) .nil
  | .cons n .nil => .cons n .nil
  | .cons n rest => .cons n (Nodes.update_last rest)

mutual
/-- `Writer.node`: dispatch a node to its handler.  The handler-table
lookup (by type, then by type name) is embedded as the match over the
closed node type; a `Variable` or `FilterExpression` payload reaching a
non-recursing handler is dispatched by direct call, as in the handler
functions above.  An unmatched node takes the `for ... else` branch:
one warning, nothing written. -/
def Writer.node (s : Writer) (n : Node) : Except String Writer :=
  match n with
  | .TextNode t => Except.ok (text_node s t)
  | .VariableRef v => Except.ok (DjangoToJinja.«variable» s v)
  | .VariableNode fe => variable_node s fe
  | .FilterExpressionNode fe => filter_expression s fe
  | .ForNode loopvars is_reversed sequence nodelist_loop nodelist_empty =>
      for_loop s loopvars is_reversed sequence nodelist_loop nodelist_empty
  | .CycleNode raw_cycle_vars variable_name =>
      Except.ok (cycle s raw_cycle_vars variable_name)
  | .AutoEscapeControlNode setting nodelist => autoescape_control s setting nodelist
  | .SpacelessNode nodelist => spaceless s nodelist
  | .Unknown module cls =>
      Except.ok (s.warn ("Untranslatable node " ++ module ++ "." ++ cls ++ " found"))
termination_by 3 * n.size
decreasing_by all_goals (simp [Node.size, Nodes.size]; try omega)

/-- `Writer.body`: dispatch every node of a list in order. -/
def Writer.body (s : Writer) (nodes : Nodes) : Except String Writer :=
  match nodes with
  | .nil => Except.ok s
  | .cons n rest => do
      let s ← Writer.node s n
      Writer.body s rest
termination_by 3 * nodes.size + 1
decreasing_by all_goals (simp [Node.size, Nodes.size]; try omega)

/-- `ForNode` handler: loop-variable list, the (optionally
reversed-and-wrapped) sequence, the loop body inside an
`enter_loop`/`leave_loop` pair, the optional `else` branch, the closing
tag. -/
def for_loop (s : Writer) (loopvars : List String) (is_reversed : Bool)
    (sequence : Node) (nodelist_loop nodelist_empty : Nodes) :
    Except String Writer := do
  let s := (s.start_block).write "for "
  let s := write_loopvars s loopvars true
  let s := s.write " in "
  let s := if is_reversed then s.write "(" else s
  let s ← Writer.node s sequence
  let s := if is_reversed then s.write ")|reverse" else s
  let s := s.end_block
  let s := s.enter_loop
  let s ← Writer.body s nodelist_loop
  let s := s.leave_loop
  let s ← if nodelist_empty.isNil then Except.ok s
          else Writer.body (s.tag "else") nodelist_empty
  Except.ok (s.tag "endfor")
termination_by 3 * (sequence.size + nodelist_loop.size + nodelist_empty.size) + 2
decreasing_by all_goals (simp [Node.size, Nodes.size]; try omega)

/-- `AutoEscapeControlNode` handler: save the flag, set the node's
setting, translate the children, restore the flag. -/
def autoescape_control (s : Writer) (setting : Bool) (nodelist : Nodes) :
    Except String Writer := do
  let original := s.autoescape
  let s1 := { s with autoescape := setting }
  let s2 ← Writer.body s1 nodelist
  Except.ok { s2 with autoescape := original }
termination_by 3 * nodelist.size + 2
decreasing_by all_goals (simp [Node.size, Nodes.size]; try omega)

/-- `SpacelessNode` handler: save the flag, set spaceless, warn, strip
the edge text nodes, translate the children, restore the flag. -/
def spaceless (s : Writer) (nodelist : Nodes) : Except String Writer := do
  let original := s.spaceless
  let s1 := { s with spaceless := true }
  let s1 := s1.warn "entering spaceless mode with different semantics"
  let s2 ← Writer.body s1 (nodelist.update_first.update_last)
  Except.ok { s2 with spaceless := original }
termination_by 3 * nodelist.size + 2
decreasing_by
  have hf : ∀ ns : Nodes, ns.update_first.size = ns.size := by
    intro ns
    cases ns with
    | nil => rfl
    | cons n rest => cases n <;> rfl
  have hl : ∀ (k : Nat) (ns : Nodes), ns.size ≤ k → ns.update_last.size = ns.size := by
    intro k
    induction k with
    | zero =>
      intro ns h
      cases ns with
      | nil => rfl
      | cons n rest =>
        simp [Nodes.size] at h
    | succ k ih =>
      intro ns h
      cases ns with
      | nil => rfl
      | cons n rest =>
        cases rest with
        | nil => cases n <;> rfl
        | cons m r =>
          have hr : (Nodes.cons m r).size ≤ k := by
            simp [Nodes.size, Node.size] at h ⊢
            omega
          have heq := ih (Nodes.cons m r) hr
          cases n <;> simp [Nodes.update_last, Nodes.size, heq]
  have e1 : nodelist.update_first.size = nodelist.size := hf nodelist
  have e2 : nodelist.update_first.update_last.size = nodelist.update_first.size :=
    hl nodelist.update_first.size nodelist.update_first le_rfl
  simp [Node.size, Nodes.size, e1, e2]
end

/-- A `django.template.smartif` condition tree as `if_condition_to_bits`
reads it: a `Literal` leaf carrying its `value`, or an operator token
with its `id` string, a mandatory `first` operand and an optional
`second` operand (absent exactly for a prefix operator such as `not`).
The `isinstance(condition, OPERATORS['not'])` test identifies the
operator class registered for the token `not`, i.e. an operator node
whose `id` is `not`. -/
inductive IfCond where
  | literal (value : String)
  | op (id : String) (first : IfCond) (second : Option IfCond)

/-- One bit of a linearized condition: a literal value or an operator
token (the `operator` handler later prints the operator's `id`). -/
inductive ConditionBit where
  | value (v : String)
  | opBit (id : String)
deriving DecidableEq, Repr

/-- `_if_condition_to_bits_backwards`: the recursive generator — for a
literal, its value; otherwise the second operand's bits (when present),
then for the prefix `not` operator the first operand's bits followed by
the operator, and for anything else the operator followed by the first
operand's bits. -/
def if_condition_to_bits_backwards : IfCond → List ConditionBit
  | .literal v => [.value v]
  | .op id first second =>
    (match second with
     | some c => if_condition_to_bits_backwards c
     | none => []) ++
    (if id = "not" then if_condition_to_bits_backwards first ++ [.opBit id]
     else .opBit id :: if_condition_to_bits_backwards first)

/-- `if_condition_to_bits`: the backwards bit list reversed once at the
top level. -/
def if_condition_to_bits (condition : IfCond) : List ConditionBit :=
  (if_condition_to_bits_backwards condition).reverse

/-- The configuration slice of the writer state: the six delimiter
strings, the `use_jinja_autoescape` flag, the rewrite-rule list and the
environment handle — the fields no handler ever assigns. -/
def Writer.config (w : Writer) :=
  (w.block_start_string, w.block_end_string, w.variable_start_string,
   w.variable_end_string, w.comment_start_string, w.comment_end_string,
   w.use_jinja_autoescape, w.var_re, w.env)

/-- Every writer field except the two streams, bundled for the
write-only-to-stream lemmas. -/
def Writer.ctl (w : Writer) :=
  (w.loop_depth, w.autoescape, w.spaceless, w.enter_events,
   w.leave_events, w.min_depth, w.config)

/-- What one complete handler invocation preserves: the loop depth, both
scoped flags and the configuration come back to their initial values, the
enter/leave events stay balanced, and the minimum loop depth reached
during the call never drops below the smaller of the initial minimum and
the initial depth. -/
@[reducible] def Preserved (a b : Writer) : Prop :=
  b.loop_depth = a.loop_depth ∧ b.autoescape = a.autoescape ∧
  b.spaceless = a.spaceless ∧
  b.enter_events + a.leave_events = b.leave_events + a.enter_events ∧
  min a.min_depth a.loop_depth ≤ b.min_depth ∧
  b.config = a.config

/-- The `FilterExpression` node referencing the bare identifier `items`
(testable property 6 of the specification). -/
def items_sequence : Node :=
  .FilterExpressionNode
    { var := .var { translate := false, literal := none, var := "items" }
      filters := [] }

/-- The variable-print node referencing `item.name` with no filters. -/
def item_name_print : Node :=
  .VariableNode
    { var := .var { translate := false, literal := none, var := "item.name" }
      filters := [] }

/-- The loop node of the end-to-end scenario: one loop variable `item`,
sequence `items`, body `{{ item.name }}`, no empty branch. -/
def demo_for_node : Node :=
  .ForNode ["item"] false items_sequence (.cons item_name_print .nil) .nil

/-- A doubly nested loop used to exercise the loop-depth balance
invariant on a concrete input. -/
def demo_nested_for : Node :=
  .ForNode ["a"] false items_sequence
    (.cons (.ForNode ["b"] false items_sequence (.cons (.TextNode "x") .nil) .nil)
       .nil)
    .nil

/-- `Variable('"a"')` as the patched cycle constructor stores it: raw
string `"a"`, resolved literal `a`. -/
def raw_a : Variable := { translate := false, literal := some (.str "a"), var := "\"a\"" }

/-- `Variable('"b"')`. -/
def raw_b : Variable := { translate := false, literal := some (.str "b"), var := "\"b\"" }

/-- The cycle node with raw values `"a", "b"` and no assignment
target. -/
def demo_cycle_node : Node := .CycleNode [raw_a, raw_b] none

/-- The documented example rule `(re.compile(r"\.url"), r".url()",
re.compile(r"(form|calendar).url"))`, modelled by its behaviour at the
identifier `form.url`: the match pattern hits, the substitution appends
the call parentheses, and the exclusion pattern also hits. -/
def url_rule : IdentifierRule where
  search := fun v => v == "form.url"
  sub := fun v => v ++ "()"
  excl := some (fun v => v == "form.url")

/-- A rewrite rule whose match pattern hits exactly the identifier
`block.super`, used to observe whether identifier translation runs. -/
def block_super_rule : IdentifierRule where
  search := fun v => v == "block.super"
  sub := fun _ => "REWRITTEN"
  excl := none

/-- A writer carrying the `block.super` rewrite rule and an environment
that registers the filter `upper`. -/
def c10_writer : Writer :=
  { default_writer with
      var_re := [block_super_rule]
      env := some { filters := ["upper"], globals := [] } }

/-- The filter expression referencing exactly `block.super`, with the
given filter list. -/
def block_super_fe (fs : List Filter) : FilterExpr :=
  { var := .var { translate := false, literal := none, var := "block.super" }
    filters := fs }

/-- The `upper` filter with no arguments, resolvable by name. -/
def upper_filter : Filter := { filter_name := some "upper", args := [] }

/-- A filter expression `x|upper`: a plain variable with one resolvable
filter. -/
def x_upper_fe : FilterExpr :=
  { var := .var { translate := false, literal := none, var := "x" }
    filters := [upper_filter] }

/-- The state a default writer reaches after translating a spaceless
region with empty content: one warning, nothing else changed. -/
def c9_spaceless_result : Writer :=
  { default_writer with
      error_stream := ["entering spaceless mode with different semantics"] }

/-- The state a default writer reaches after translating the doubly
nested loop `demo_nested_for`: the emitted text, two enter-loop and two
leave-loop events, and depth restored to 0 without ever dropping below
it. -/
def c8_result : Writer :=
  { default_writer with
      stream := "\x7b% for a in items %\x7d\x7b% for b in items %\x7dx\x7b% endfor %\x7d\x7b% endfor %\x7d"
      enter_events := 2
      leave_events := 2 }

/-! Reduction lemmas for the `Except` monad operations, and the
inversion lemma splitting a successful bind. -/

@[simp] theorem except_ok_bind {α β : Type} (a : α) (f : α → Except String β) :
    (Except.ok a >>= f) = f a := rfl

@[simp] theorem except_error_bind {α β : Type} (e : String) (f : α → Except String β) :
    ((Except.error e : Except String α) >>= f) = Except.error e := rfl

@[simp] theorem except_map_ok {α β : Type} (f : α → β) (a : α) :
    (Except.ok a : Except String α).map f = Except.ok (f a) := rfl

theorem except_bind_ok {α β : Type} {e : Except String α} {f : α → Except String β} {b : β} :
    (e >>= f) = Except.ok b ↔ ∃ a, e = Except.ok a ∧ f a = Except.ok b := by
  cases e with
  | error err => simp [Bind.bind, Except.bind]
  | ok a => simp [Bind.bind, Except.bind]

/-! The edge-stripping steps of the spaceless handler do not change the
node-count measure. -/

theorem size_update_first (ns : Nodes) : ns.update_first.size = ns.size := by
  cases ns with
  | nil => rfl
  | cons n rest => cases n <;> rfl

theorem size_update_last (ns : Nodes) : ns.update_last.size = ns.size := by
  have key : ∀ (k : Nat) (ms : Nodes), ms.size ≤ k → ms.update_last.size = ms.size := by
    intro k
    induction k with
    | zero =>
      intro ms h
      cases ms with
      | nil => rfl
      | cons n rest => simp [Nodes.size] at h
    | succ k ih =>
      intro ms h
      cases ms with
      | nil => rfl
      | cons n rest =>
        cases rest with
        | nil => cases n <;> rfl
        | cons m r =>
          have hr : (Nodes.cons m r).size ≤ k := by
            simp [Nodes.size] at h ⊢
            omega
          have heq := ih (Nodes.cons m r) hr
          cases n <;> simp [Nodes.update_last, Nodes.size, heq]
  exact key ns.size ns le_rfl

/-! `ctl` preservation of every pure emission helper: each one writes to
a stream and changes nothing else. -/

@[simp] theorem ctl_write (s : Writer) (t : String) : (s.write t).ctl = s.ctl := rfl

@[simp] theorem ctl_warn (s : Writer) (m : String) : (s.warn m).ctl = s.ctl := rfl

@[simp] theorem ctl_post_open (s : Writer) : s.post_open.ctl = s.ctl := by
  simp only [Writer.post_open]
  split <;> rfl

@[simp] theorem ctl_pre_close (s : Writer) : s.pre_close.ctl = s.ctl := by
  simp only [Writer.pre_close]
  split <;> rfl

@[simp] theorem ctl_start_variable (s : Writer) : s.start_variable.ctl = s.ctl := by
  simp [Writer.start_variable]

@[simp] theorem ctl_end_variable (s : Writer) (b : Bool) :
    (s.end_variable b).ctl = s.ctl := by
  simp only [Writer.end_variable]
  split <;> simp

@[simp] theorem ctl_start_block (s : Writer) : s.start_block.ctl = s.ctl := by
  simp [Writer.start_block]

@[simp] theorem ctl_end_block (s : Writer) : s.end_block.ctl = s.ctl := by
  simp [Writer.end_block]

@[simp] theorem ctl_tag (s : Writer) (t : String) : (s.tag t).ctl = s.ctl := by
  simp [Writer.tag]

@[simp] theorem ctl_print_expr (s : Writer) (e : String) : (s.print_expr e).ctl = s.ctl := by
  simp [Writer.print_expr]

@[simp] theorem ctl_literal (s : Writer) (v : PyValue) : (s.literal v).ctl = s.ctl := by
  simp only [Writer.literal]
  split <;> rfl

@[simp] theorem ctl_variable_method (s : Writer) (n : String) :
    (s.variable n).ctl = s.ctl := by
  simp [Writer.variable]

@[simp] theorem ctl_variable_handler (s : Writer) (v : Variable) :
    («variable» s v).ctl = s.ctl := by
  cases hv : v.translate <;> cases hl : v.literal <;> simp [«variable», hv, hl]

@[simp] theorem ctl_text_node (s : Writer) (t : String) : (text_node s t).ctl = s.ctl := rfl

@[simp] theorem ctl_filter_args_go (args : List FilterArg) :
    ∀ (s : Writer) (first : Bool), (s.filter_args_go args first).ctl = s.ctl := by
  induction args with
  | nil => intro s first; rfl
  | cons a rest ih =>
    intro s first
    cases a <;> cases first <;> simp [Writer.filter_args_go, ih]

@[simp] theorem ctl_filter_args (s : Writer) (args : List FilterArg) :
    (s.filter_args args).ctl = s.ctl := by
  cases args <;> simp [Writer.filter_args]

@[simp] theorem ctl_write_loopvars (lvs : List String) :
    ∀ (s : Writer) (first : Bool), (write_loopvars s lvs first).ctl = s.ctl := by
  induction lvs with
  | nil => intro s first; rfl
  | cons v rest ih =>
    intro s first
    cases first <;> simp [write_loopvars, ih]

@[simp] theorem ctl_cycle_args (vars : List Variable) :
    ∀ (s : Writer) (first : Bool), (cycle_args s vars first).ctl = s.ctl := by
  induction vars with
  | nil => intro s first; rfl
  | cons v rest ih =>
    intro s first
    cases first <;> simp [cycle_args, ih]

@[simp] theorem ctl_cycle (s : Writer) (vars : List Variable) (vn : Option String) :
    (cycle s vars vn).ctl = s.ctl := by
  simp only [cycle]
  split
  · rfl
  · cases vn <;> simp

theorem ctl_filters_go (fs : List Filter) :
    ∀ (s s' : Writer) (wp : Bool), s.filters_go fs wp = Except.ok s' → s'.ctl = s.ctl := by
  induction fs with
  | nil =>
    intro s s' wp h
    simp only [Writer.filters_go] at h
    cases h
    rfl
  | cons f rest ih =>
    intro s s' wp h
    simp only [Writer.filters_go, Writer.get_filter_name] at h
    cases hfn : f.filter_name with
    | none =>
      rw [hfn] at h
      simp only at h
      exact (ih _ s' wp h).trans (ctl_warn s _)
    | some name =>
      rw [hfn] at h
      simp only at h
      cases henv : s.env with
      | none => rw [henv] at h; simp at h
      | some env =>
        rw [henv] at h
        simp only at h
        have := ih _ s' true h
        rw [this]
        cases hmem : decide (name ∈ env.filters) <;> cases wp <;>
          simp_all

theorem ctl_filters (s s' : Writer) (fs : List Filter) (b : Bool)
    (h : s.filters fs b = Except.ok s') : s'.ctl = s.ctl :=
  ctl_filters_go fs s s' (!b) h

theorem ctl_filter_expression (s s' : Writer) (fe : FilterExpr)
    (h : filter_expression s fe = Except.ok s') : s'.ctl = s.ctl := by
  simp only [filter_expression] at h
  cases hv : fe.var with
  | safedata v =>
    rw [hv] at h
    have := ctl_filters _ _ _ _ h
    simpa using this
  | var v =>
    rw [hv] at h
    have := ctl_filters _ _ _ _ h
    simpa using this

theorem ctl_variable_node (s s' : Writer) (fe : FilterExpr)
    (h : variable_node s fe = Except.ok s') : s'.ctl = s.ctl := by
  simp only [variable_node] at h
  cases hv : fe.var with
  | safedata v => rw [hv] at h; simp at h
  | var v =>
    rw [hv] at h
    simp only at h
    by_cases hc : (v.var = "block.super" && fe.filters.isEmpty) = true
    · rw [if_pos hc] at h
      cases h
      simp
    · rw [if_neg hc] at h
      rw [except_bind_ok] at h
      obtain ⟨s1, h1, h2⟩ := h
      cases h2
      have := ctl_filter_expression _ _ _ h1
      simp [this]

/-! `Preserved` combinators. -/

@[simp] theorem config_enter_loop (s : Writer) : s.enter_loop.config = s.config := rfl

@[simp] theorem config_leave_loop (s : Writer) : s.leave_loop.config = s.config := rfl

theorem preserved_of_ctl {a b : Writer} (h : b.ctl = a.ctl) : Preserved a b := by
  simp only [Writer.ctl, Prod.mk.injEq] at h
  obtain ⟨h1, h2, h3, h4, h5, h6, h7⟩ := h
  exact ⟨h1, h2, h3, by omega, by rw [h6]; exact min_le_left _ _, h7⟩

theorem preserved_refl (a : Writer) : Preserved a a := preserved_of_ctl rfl

theorem preserved_trans {a b c : Writer} (h1 : Preserved a b) (h2 : Preserved b c) :
    Preserved a c := by
  obtain ⟨d1, a1, s1, e1, m1, c1⟩ := h1
  obtain ⟨d2, a2, s2, e2, m2, c2⟩ := h2
  refine ⟨d2.trans d1, a2.trans a1, s2.trans s1, by omega, ?_, c2.trans c1⟩
  rw [d1] at m2
  omega

/-- The enter/translate-body/leave bracket of the loop handler: if the
body preserves the state entered at depth `+1`, the whole bracket
preserves the pre-bracket state (and restores the depth). -/
theorem preserved_loop_scope {a s2 : Writer} (hb : Preserved a.enter_loop s2) :
    Preserved a s2.leave_loop := by
  obtain ⟨d, au, sp, ev, mn, cf⟩ := hb
  simp only [Writer.enter_loop] at d au sp ev mn cf
  refine ⟨?_, ?_, ?_, ?_, ?_, ?_⟩
  · simp only [Writer.leave_loop]; omega
  · simpa [Writer.leave_loop] using au
  · simpa [Writer.leave_loop] using sp
  · simp only [Writer.leave_loop]; omega
  · simp only [Writer.leave_loop]; omega
  · rw [config_leave_loop, cf]; rfl

/-! Every successful handler invocation preserves the non-stream state
in the sense of `Preserved`, by mutual induction over the translation
functions. -/

mutual
theorem node_preserved (s : Writer) (n : Node) (s' : Writer)
    (h : Writer.node s n = Except.ok s') : Preserved s s' := by
  cases n with
  | TextNode t =>
    simp only [Writer.node, Except.ok.injEq] at h
    exact h ▸ preserved_of_ctl (ctl_text_node s t)
  | VariableRef v =>
    simp only [Writer.node, Except.ok.injEq] at h
    exact h ▸ preserved_of_ctl (ctl_variable_handler s v)
  | VariableNode fe =>
    simp only [Writer.node] at h
    exact preserved_of_ctl (ctl_variable_node s s' fe h)
  | FilterExpressionNode fe =>
    simp only [Writer.node] at h
    exact preserved_of_ctl (ctl_filter_expression s s' fe h)
  | ForNode lvs rev seq nl ne =>
    simp only [Writer.node] at h
    exact for_loop_preserved s lvs rev seq nl ne s' h
  | CycleNode vars vn =>
    simp only [Writer.node, Except.ok.injEq] at h
    exact h ▸ preserved_of_ctl (ctl_cycle s vars vn)
  | AutoEscapeControlNode setting nl =>
    simp only [Writer.node] at h
    exact autoescape_preserved s setting nl s' h
  | SpacelessNode nl =>
    simp only [Writer.node] at h
    exact spaceless_preserved s nl s' h
  | Unknown module cls =>
    simp only [Writer.node, Except.ok.injEq] at h
    exact h ▸ preserved_of_ctl (ctl_warn s _)
termination_by 3 * n.size
decreasing_by all_goals (subst_vars; simp [Node.size, Nodes.size]; try omega)

theorem body_preserved (s : Writer) (ns : Nodes) (s' : Writer)
    (h : Writer.body s ns = Except.ok s') : Preserved s s' := by
  cases ns with
  | nil =>
    simp only [Writer.body, Except.ok.injEq] at h
    exact h ▸ preserved_refl s
  | cons n rest =>
    simp only [Writer.body, except_bind_ok] at h
    obtain ⟨s1, h1, h2⟩ := h
    exact preserved_trans (node_preserved s n s1 h1) (body_preserved s1 rest s' h2)
termination_by 3 * ns.size + 1
decreasing_by all_goals (subst_vars; simp [Node.size, Nodes.size]; try omega)

theorem for_loop_preserved (s : Writer) (lvs : List String) (rev : Bool) (seq : Node)
    (nl ne : Nodes) (s' : Writer)
    (h : for_loop s lvs rev seq nl ne = Except.ok s') : Preserved s s' := by
  simp only [for_loop] at h
  rw [except_bind_ok] at h
  obtain ⟨s1, hseq, h⟩ := h
  rw [except_bind_ok] at h
  obtain ⟨s2, hbody, h⟩ := h
  have p1 : Preserved s s1 := by
    refine preserved_trans (preserved_of_ctl ?_) (node_preserved _ seq s1 hseq)
    cases rev <;> simp
  have hmid : ((if rev then s1.write ")|reverse" else s1).end_block).ctl = s1.ctl := by
    cases rev <;> simp
  have p2 : Preserved ((if rev then s1.write ")|reverse" else s1).end_block).enter_loop s2 :=
    body_preserved _ nl s2 hbody
  have p4 : Preserved s s2.leave_loop :=
    preserved_trans p1 (preserved_trans (preserved_of_ctl hmid) (preserved_loop_scope p2))
  cases hni : ne.isNil with
  | true =>
    simp only [hni, if_true, except_ok_bind, Except.ok.injEq] at h
    exact h ▸ preserved_trans p4 (preserved_of_ctl (ctl_tag _ _))
  | false =>
    simp only [hni, Bool.false_eq_true, if_false] at h
    rw [except_bind_ok] at h
    obtain ⟨s3, hemp, hfin⟩ := h
    rw [Except.ok.injEq] at hfin
    have p5 : Preserved s s3 := preserved_trans p4
      (preserved_trans (preserved_of_ctl (ctl_tag _ _)) (body_preserved _ ne s3 hemp))
    exact hfin ▸ preserved_trans p5 (preserved_of_ctl (ctl_tag _ _))
termination_by 3 * (seq.size + nl.size + ne.size) + 2
decreasing_by all_goals (subst_vars; simp [Node.size, Nodes.size]; try omega)

theorem autoescape_preserved (s : Writer) (setting : Bool) (nl : Nodes) (s' : Writer)
    (h : autoescape_control s setting nl = Except.ok s') : Preserved s s' := by
  simp only [autoescape_control, except_bind_ok] at h
  obtain ⟨s2, hb, hfin⟩ := h
  cases hfin
  obtain ⟨d, au, sp, ev, mn, cf⟩ := body_preserved { s with autoescape := setting } nl s2 hb
  simp only at d au sp ev mn cf
  exact ⟨d, rfl, sp, ev, mn, cf⟩
termination_by 3 * nl.size + 2
decreasing_by all_goals (subst_vars; simp [Node.size, Nodes.size]; try omega)

theorem spaceless_preserved (s : Writer) (nl : Nodes) (s' : Writer)
    (h : spaceless s nl = Except.ok s') : Preserved s s' := by
  simp only [spaceless, except_bind_ok] at h
  obtain ⟨s2, hb, hfin⟩ := h
  cases hfin
  obtain ⟨d, au, sp, ev, mn, cf⟩ :=
    body_preserved ({ s with spaceless := true }.warn
      "entering spaceless mode with different semantics") (nl.update_first.update_last) s2 hb
  simp only [Writer.warn] at d au sp ev mn cf
  exact ⟨d, au, rfl, ev, mn, cf⟩
termination_by 3 * nl.size + 2
decreasing_by
  have e1 : nl.update_first.size = nl.size := size_update_first nl
  have e2 : nl.update_first.update_last.size = nl.update_first.size :=
    size_update_last nl.update_first
  simp [Node.size, Nodes.size, e1, e2]
end

/-- C1 counterexample: translating the loop node of the scenario with a
default writer emits `{% for item in items %}{{ item.name|e }}{% endfor %}`,
which differs from the claimed text
`{% for item in items %} {{ item.name|e }} {% endfor %}` — no space is
ever written between two adjacent tags. -/
theorem c1_counterexample :
    (Writer.node default_writer demo_for_node).map Writer.stream =
      Except.ok "\x7b% for item in items %\x7d\x7b\x7b item.name|e \x7d\x7d\x7b% endfor %\x7d" ∧
    "\x7b% for item in items %\x7d\x7b\x7b item.name|e \x7d\x7d\x7b% endfor %\x7d" ≠
      "\x7b% for item in items %\x7d \x7b\x7b item.name|e \x7d\x7d \x7b% endfor %\x7d" := by
  constructor
  · simp only [Writer.node, Writer.body, for_loop, demo_for_node, items_sequence,
      item_name_print]
    exact rfl
  · decide

/-- C1 (amended): for the loop node with one loop variable `item`,
sequence `items` and a body holding the single variable-print node
`item.name`, a default-configuration writer writes exactly
`{% for item in items %}{{ item.name|e }}{% endfor %}` (with no
whitespace between adjacent tags) and no warning. -/
theorem c1_for_loop_translation :
    (Writer.node default_writer demo_for_node).map Writer.stream =
      Except.ok "\x7b% for item in items %\x7d\x7b\x7b item.name|e \x7d\x7d\x7b% endfor %\x7d" ∧
    (Writer.node default_writer demo_for_node).map Writer.error_stream = Except.ok [] := by
  constructor <;>
    (simp only [Writer.node, Writer.body, for_loop, demo_for_node, items_sequence,
      item_name_print]
     exact rfl)

/-- C2: the exclusion pattern of a rewrite rule is dead code — the Python
expression `unless and unless.search(var) or True` is always truthy, so a
rule whose match pattern and exclusion pattern both hit `form.url` is
applied anyway, producing `form.url()` where the claim requires the rule
to be skipped (leaving `form.url`). -/
theorem c2_exclusion_ignored :
    Writer.translate_variable_name { default_writer with var_re := [url_rule] } "form.url"
      = "form.url()" ∧
    "form.url()" ≠ "form.url" := by
  exact ⟨rfl, by decide⟩

/-- C3: at loop depth 0 (where `in_loop` is false) the identifier
`forloop.counter` is still rewritten to `loop.counter`, because
`self.in_loop and var == 'forloop' or var.startswith('forloop.')`
parses as a disjunction whose second disjunct is not guarded by
`in_loop`; the claim requires it to pass through unchanged. -/
theorem c3_strip_applied_outside_loop :
    default_writer.in_loop = false ∧
    Writer.translate_variable_name default_writer "forloop.counter" = "loop.counter" ∧
    "loop.counter" ≠ "forloop.counter" := by
  exact ⟨rfl, rfl, by decide⟩

/-- C4: with the default `env = None`, dumping a list containing one
resolvable filter evaluates `name not in self.env.filters` and raises
`AttributeError` — both directly in `Writer.filters` and when translating
a filter-expression node carrying that filter — contradicting the claim
that the existence checks are disabled and nothing is raised. -/
theorem c4_env_none_filters_raise :
    default_writer.env = none ∧
    Writer.filters default_writer [upper_filter] false =
      Except.error "AttributeError: \x27NoneType\x27 object has no attribute \x27filters\x27" ∧
    Writer.node default_writer (.FilterExpressionNode x_upper_fe) =
      Except.error "AttributeError: \x27NoneType\x27 object has no attribute \x27filters\x27" := by
  refine ⟨rfl, rfl, ?_⟩
  simp only [Writer.node]
  exact rfl

/-- C5: linearizing the condition tree of `A and not B` (an `and` node
whose first operand is the literal `A` and whose second operand is a
prefix `not` node over the literal `B`) yields the bits `A`, `and`,
`not`, `B` in that left-to-right order. -/
theorem c5_linearization_order (a b : String) :
    if_condition_to_bits (.op "and" (.literal a) (some (.op "not" (.literal b) none))) =
      [.value a, .opBit "and", .opBit "not", .value b] := by
  simp [if_condition_to_bits, if_condition_to_bits_backwards]

/-- C5 witness: the linearization evaluated at the literals `A` and
`B`. -/
theorem c5_linearization_order_witness :
    if_condition_to_bits (.op "and" (.literal "A") (some (.op "not" (.literal "B") none))) =
      [.value "A", .opBit "and", .opBit "not", .value "B"] :=
  c5_linearization_order "A" "B"

/-- C6: at any loop depth `d ≥ 1` the cycle node with raw values
`"a", "b"` and no assignment target prints
`{{ loop.cycle('a', 'b')|e }}` (the printed-expression form of
`loop.cycle("a", "b")`, with repr quoting and the explicit escape filter
required by default autoescape) and warns nothing; at loop depth 0 the
same node writes nothing and emits exactly one warning. -/
theorem c6_cycle_translation (d : Int) (hd : 0 < d) :
    ((Writer.node { default_writer with loop_depth := d } demo_cycle_node).map Writer.stream =
        Except.ok "\x7b\x7b loop.cycle(\x27a\x27, \x27b\x27)|e \x7d\x7d" ∧
      (Writer.node { default_writer with loop_depth := d } demo_cycle_node).map
          Writer.error_stream = Except.ok []) ∧
    ((Writer.node default_writer demo_cycle_node).map Writer.stream = Except.ok "" ∧
      (Writer.node default_writer demo_cycle_node).map Writer.error_stream =
        Except.ok ["Untranslatable free cycle (cycle outside loop)"]) := by
  refine ⟨⟨?_, ?_⟩, ?_, ?_⟩
  · simp [Writer.node, demo_cycle_node, cycle, Writer.in_loop, hd, cycle_args, «variable»,
      raw_a, raw_b, Writer.literal, pyRepr, py_take, py_drop, Writer.start_variable,
      Writer.end_variable, Writer.post_open, Writer.pre_close, Writer.write, default_writer,
      Except.map]
  · simp [Writer.node, demo_cycle_node, cycle, Writer.in_loop, hd, cycle_args, «variable»,
      raw_a, raw_b, Writer.literal, pyRepr, py_take, py_drop, Writer.start_variable,
      Writer.end_variable, Writer.post_open, Writer.pre_close, Writer.write, default_writer,
      Except.map]
  · simp only [Writer.node, demo_cycle_node]
    exact rfl
  · simp only [Writer.node, demo_cycle_node]
    exact rfl

/-- C6 witness: the theorem instantiated at loop depth 1. -/
theorem c6_cycle_translation_witness :
    ((Writer.node { default_writer with loop_depth := 1 } demo_cycle_node).map Writer.stream =
        Except.ok "\x7b\x7b loop.cycle(\x27a\x27, \x27b\x27)|e \x7d\x7d" ∧
      (Writer.node { default_writer with loop_depth := 1 } demo_cycle_node).map
          Writer.error_stream = Except.ok []) ∧
    ((Writer.node default_writer demo_cycle_node).map Writer.stream = Except.ok "" ∧
      (Writer.node default_writer demo_cycle_node).map Writer.error_stream =
        Except.ok ["Untranslatable free cycle (cycle outside loop)"]) :=
  c6_cycle_translation 1 (by decide)

/-- C7: a node matching no handler (any `Unknown` node, for every module
and class name and every writer state) produces exactly one warning of
the form `Untranslatable node <module>.<class> found`, writes nothing to
the output stream, and the enclosing body continues with the remaining
nodes in order. -/
theorem c7_untranslatable_node (module cls : String) (s : Writer) (rest : Nodes) :
    (Writer.node s (.Unknown module cls)).map Writer.stream = Except.ok s.stream ∧
    (Writer.node s (.Unknown module cls)).map Writer.error_stream =
      Except.ok (s.error_stream ++ ["Untranslatable node " ++ module ++ "." ++ cls ++ " found"]) ∧
    Writer.body s (.cons (.Unknown module cls) rest) =
      Writer.body (s.warn ("Untranslatable node " ++ module ++ "." ++ cls ++ " found")) rest := by
  refine ⟨?_, ?_, ?_⟩ <;> simp [Writer.node, Writer.body, Writer.warn]

/-- C7 witness: the dispatch fallback evaluated at a concrete unknown
node from the default writer. -/
theorem c7_untranslatable_node_witness :
    (Writer.node default_writer (.Unknown "somemod" "SomeNode")).map Writer.stream =
      Except.ok default_writer.stream ∧
    (Writer.node default_writer (.Unknown "somemod" "SomeNode")).map Writer.error_stream =
      Except.ok (default_writer.error_stream ++
        ["Untranslatable node " ++ "somemod" ++ "." ++ "SomeNode" ++ " found"]) ∧
    Writer.body default_writer (.cons (.Unknown "somemod" "SomeNode") .nil) =
      Writer.body
        (default_writer.warn ("Untranslatable node " ++ "somemod" ++ "." ++ "SomeNode" ++ " found"))
        .nil :=
  c7_untranslatable_node "somemod" "SomeNode" default_writer .nil

/-- C8: translating any node from any state restores the loop-depth
counter, balances the enter-loop and leave-loop event counts, and — when
the starting depth and the recorded minimum are nonnegative — keeps the
instrumented minimum depth (the smallest value the counter takes at any
mutation point) nonnegative throughout. -/
theorem c8_loop_depth_balanced (n : Node) (s s' : Writer)
    (h : Writer.node s n = Except.ok s') :
    s'.loop_depth = s.loop_depth ∧
    s'.enter_events + s.leave_events = s'.leave_events + s.enter_events ∧
    (0 ≤ s.min_depth → 0 ≤ s.loop_depth → 0 ≤ s'.min_depth) := by
  obtain ⟨d, _, _, ev, mn, _⟩ := node_preserved s n s' h
  exact ⟨d, ev, fun h1 h2 => le_trans (le_min h1 h2) mn⟩

/-- C8 witness: the doubly nested loop translated from the default
writer ends with depth 0, two enter events matched by two leave events,
and a nonnegative minimum depth. -/
theorem c8_loop_depth_balanced_witness :
    c8_result.loop_depth = default_writer.loop_depth ∧
    c8_result.enter_events + default_writer.leave_events =
      c8_result.leave_events + default_writer.enter_events ∧
    0 ≤ c8_result.min_depth := by
  have h : Writer.node default_writer demo_nested_for = Except.ok c8_result := by
    simp only [Writer.node, Writer.body, for_loop, demo_nested_for, items_sequence]
    exact rfl
  obtain ⟨h1, h2, h3⟩ := c8_loop_depth_balanced demo_nested_for default_writer c8_result h
  exact ⟨h1, h2, h3 (by decide) (by decide)⟩

/-- C9: after a successfully translated autoescape region and a
successfully translated spaceless region over the same (arbitrary)
content, the autoescape and spaceless flags, the loop depth and the
whole configuration slice equal their values before the handler ran. -/
theorem c9_scoped_flags_restored (setting : Bool) (nl : Nodes) (s sA sS : Writer)
    (hA : Writer.node s (.AutoEscapeControlNode setting nl) = Except.ok sA)
    (hS : Writer.node s (.SpacelessNode nl) = Except.ok sS) :
    (sA.autoescape = s.autoescape ∧ sA.spaceless = s.spaceless ∧
      sA.loop_depth = s.loop_depth ∧ sA.config = s.config) ∧
    (sS.autoescape = s.autoescape ∧ sS.spaceless = s.spaceless ∧
      sS.loop_depth = s.loop_depth ∧ sS.config = s.config) := by
  obtain ⟨dA, aA, sAp, _, _, cA⟩ := node_preserved s _ sA hA
  obtain ⟨dS, aS, sSp, _, _, cS⟩ := node_preserved s _ sS hS
  exact ⟨⟨aA, sAp, dA, cA⟩, ⟨aS, sSp, dS, cS⟩⟩

/-- C9 witness: the theorem applied to an autoescape-off region and a
spaceless region with empty content, translated from the default
writer. -/
theorem c9_scoped_flags_restored_witness :
    (default_writer.autoescape = default_writer.autoescape ∧
      default_writer.spaceless = default_writer.spaceless ∧
      default_writer.loop_depth = default_writer.loop_depth ∧
      default_writer.config = default_writer.config) ∧
    (c9_spaceless_result.autoescape = default_writer.autoescape ∧
      c9_spaceless_result.spaceless = default_writer.spaceless ∧
      c9_spaceless_result.loop_depth = default_writer.loop_depth ∧
      c9_spaceless_result.config = default_writer.config) := by
  refine c9_scoped_flags_restored false Nodes.nil default_writer default_writer
    c9_spaceless_result ?_ ?_
  · simp only [Writer.node, Writer.body, autoescape_control]
    exact rfl
  · simp only [Writer.node, Writer.body, spaceless, Nodes.update_first, Nodes.update_last]
    exact rfl

/-- C10: a variable-print node referencing exactly `block.super` with no
filters emits the literal `super()` between the variable delimiters even
though the writer carries a rule rewriting `block.super` (so identifier
translation is bypassed); the same reference with one filter goes
through the normal path, where the rule rewrite and the filter pipe are
both applied. -/
theorem c10_block_super_special_case :
    (Writer.node c10_writer (.VariableNode (block_super_fe []))).map Writer.stream =
      Except.ok "\x7b\x7b super()|e \x7d\x7d" ∧
    Writer.translate_variable_name c10_writer "block.super" = "REWRITTEN" ∧
    (Writer.node c10_writer (.VariableNode (block_super_fe [upper_filter]))).map Writer.stream =
      Except.ok "\x7b\x7b REWRITTEN|upper|e \x7d\x7d" := by
  refine ⟨?_, rfl, ?_⟩
  · simp only [Writer.node, block_super_fe]
    exact rfl
  · simp only [Writer.node, block_super_fe, upper_filter]
    exact rfl

end DjangoToJinja
